import Mathlib

/-!
Verification development for the hierarchical MPC energy-management system
(energy_storage repository).  The optimization layers build cvxpy problems;
we embed each problem as the set of constraints the source code appends
(a decidable predicate over a candidate solution) together with the exact
post-processing the source applies to a solved problem.  A solver returning
status optimal or optimal_inaccurate delivers a point of the feasible set,
so every claim about a returned optimal plan is settled against the
feasibility predicate.  Numeric values are rationals: the source constants
(15*60/3600, 1e-6, efficiencies) are all rational, and rational arithmetic
keeps every predicate decidable.
-/

namespace EnergyStorage

/-- Storage asset attributes consumed by the dispatch core, mirroring the
fields read by mpc_ems_hierarchical.py: unit.efficiency, unit.power_m_w,
unit.capacity_mwh, unit.soc_min, unit.soc_max, unit.om_cost_per_mwh. -/
structure Asset where
  efficiency : ℚ
  power_m_w : ℚ
  capacity_mwh : ℚ
  soc_min : ℚ
  soc_max : ℚ
  om_cost_per_mwh : ℚ
deriving DecidableEq

/-- Upper-layer step duration in hours: dt_upper_h = (15 * 60) / 3600.0. -/
def dtUpperH : ℚ := (15 * 60) / 3600

/-- Capacity guard threshold from the source: unit.capacity_mwh > 1e-6. -/
def capEps : ℚ := 1 / 1000000

/-- Candidate solution of the deterministic upper-layer problem built in
solve_upper_level: per asset a nonnegative charge profile, a nonnegative
discharge profile (both DC side, length PH_upper), an SOC trajectory of
length PH_upper + 1, and one grid-exchange profile. -/
structure UpperSol (n T : ℕ) where
  pch : Fin n → Fin T → ℚ
  pdis : Fin n → Fin T → ℚ
  soc : Fin n → Fin (T + 1) → ℚ
  grid : Fin T → ℚ

/-- Total AC-side dispatch of the energy assets as summed inside
solve_upper_level: sum over units of p_discharge * efficiency -
p_charge / efficiency. -/
def totalSlowDispatchAC {n T : ℕ} (assets : Fin n → Asset) (s : UpperSol n T)
    (t : Fin T) : ℚ :=
  ∑ i, (s.pdis i t * (assets i).efficiency - s.pch i t / (assets i).efficiency)

/-- Constraint set of the deterministic upper-layer problem, transcribed from
solve_upper_level in Hierarchical_determined_MPC/mpc_ems_hierarchical.py
(lines 38 to 74): variable nonnegativity (cvxpy nonneg=True), the power
balance between the supplied task signal, the total slow dispatch and the
grid exchange, the per-asset SOC recursion with the 1e-6 capacity guard,
the power-rating caps, the initial SOC pinning, and the SOC box bounds. -/
def UpperFeasible {n T : ℕ} (assets : Fin n → Asset) (currentSoc : Fin n → ℚ)
    (signal : Fin T → ℚ) (s : UpperSol n T) : Prop :=
  (∀ i t, 0 ≤ s.pch i t) ∧
  (∀ i t, 0 ≤ s.pdis i t) ∧
  (∀ t, signal t = totalSlowDispatchAC assets s t + s.grid t) ∧
  (∀ i t, if capEps < (assets i).capacity_mwh then
      s.soc i t.succ = s.soc i t.castSucc +
        ((s.pch i t - s.pdis i t) * dtUpperH) / (assets i).capacity_mwh
    else
      s.soc i t.succ = s.soc i t.castSucc) ∧
  (∀ i t, s.pdis i t * (assets i).efficiency ≤ (assets i).power_m_w) ∧
  (∀ i t, s.pch i t ≤ (assets i).power_m_w * (assets i).efficiency) ∧
  (∀ i, s.soc i 0 = currentSoc i) ∧
  (∀ i t, (assets i).soc_min ≤ s.soc i t) ∧
  (∀ i t, s.soc i t ≤ (assets i).soc_max)

instance {n T : ℕ} (assets : Fin n → Asset) (currentSoc : Fin n → ℚ)
    (signal : Fin T → ℚ) (s : UpperSol n T) :
    Decidable (UpperFeasible assets currentSoc signal s) := by
  unfold UpperFeasible
  infer_instance

/-- Result record of solve_upper_level.  The dispatch dictionary is keyed by
asset: a present entry is some plan, an absent entry is none, so that the
empty dictionary returned on failure is fun _ => none. -/
structure UpperResult (n T : ℕ) where
  status : String
  dispatch : Fin n → Option (Fin T → ℚ)
  grid_exchange : Fin T → ℚ

/-- Post-processing of solve_upper_level: on a successful solve (the solver
returned a point of the feasible set) it returns status optimal, the AC
dispatch p_discharge * efficiency - p_charge / efficiency per asset, and
the grid-exchange values; on failure it returns status failed, an empty
dispatch dictionary, and np.zeros(PH_upper). -/
def solveUpperLevel {n T : ℕ} (assets : Fin n → Asset)
    (outcome : Option (UpperSol n T)) : UpperResult n T :=
  match outcome with
  | some s =>
      { status := "optimal"
        dispatch := fun i => some (fun t =>
          s.pdis i t * (assets i).efficiency - s.pch i t / (assets i).efficiency)
        grid_exchange := s.grid }
  | none =>
      { status := "failed"
        dispatch := fun _ => none
        grid_exchange := fun _ => 0 }

/-- Candidate solution of the two-stage stochastic upper-layer problem built
in solve_stochastic_upper_level (mpc_ems_stochastic.py): first-stage charge,
discharge and SOC profiles for the nE energy assets (scenario independent),
and per scenario (m scenarios) recourse charge, discharge and SOC profiles
for the nS smoothing assets together with a grid-exchange profile. -/
structure StochSol (nE nS m T : ℕ) where
  pch : Fin nE → Fin T → ℚ
  pdis : Fin nE → Fin T → ℚ
  soc : Fin nE → Fin (T + 1) → ℚ
  sch : Fin m → Fin nS → Fin T → ℚ
  sdis : Fin m → Fin nS → Fin T → ℚ
  ssoc : Fin m → Fin nS → Fin (T + 1) → ℚ
  grid : Fin m → Fin T → ℚ

/-- Scenario-s total AC dispatch of the smoothing assets, as summed inside
solve_stochastic_upper_level. -/
def totalSmoothDispatchAC {nE nS m T : ℕ} (smoothing : Fin nS → Asset)
    (s : StochSol nE nS m T) (sc : Fin m) (t : Fin T) : ℚ :=
  ∑ i, (s.sdis sc i t * (smoothing i).efficiency -
        s.sch sc i t / (smoothing i).efficiency)

/-- First-stage total AC dispatch of the energy assets in the stochastic
problem (identical expression to the deterministic layer). -/
def totalSlowDispatchACStoch {nE nS m T : ℕ} (energy : Fin nE → Asset)
    (s : StochSol nE nS m T) (t : Fin T) : ℚ :=
  ∑ i, (s.pdis i t * (energy i).efficiency - s.pch i t / (energy i).efficiency)

/-- Constraint set of the stochastic upper-layer problem, transcribed from
solve_stochastic_upper_level (mpc_ems_stochastic.py, lines 94 to 147):
first-stage pinning, SOC bounds, rating caps and guarded SOC recursion for
the energy assets; per scenario the power balance against the perturbed net
load (forecast plus that scenario error) and the same physical constraints
for the smoothing assets; nonnegativity of every power variable. -/
def StochFeasible {nE nS m T : ℕ} (energy : Fin nE → Asset)
    (smoothing : Fin nS → Asset) (currentSocE : Fin nE → ℚ)
    (currentSocS : Fin nS → ℚ) (forecast : Fin T → ℚ)
    (scenarios : Fin m → Fin T → ℚ) (s : StochSol nE nS m T) : Prop :=
  (∀ i t, 0 ≤ s.pch i t) ∧
  (∀ i t, 0 ≤ s.pdis i t) ∧
  (∀ sc i t, 0 ≤ s.sch sc i t) ∧
  (∀ sc i t, 0 ≤ s.sdis sc i t) ∧
  (∀ i, s.soc i 0 = currentSocE i) ∧
  (∀ i t, (energy i).soc_min ≤ s.soc i t) ∧
  (∀ i t, s.soc i t ≤ (energy i).soc_max) ∧
  (∀ i t, s.pdis i t * (energy i).efficiency ≤ (energy i).power_m_w) ∧
  (∀ i t, s.pch i t ≤ (energy i).power_m_w * (energy i).efficiency) ∧
  (∀ i t, if capEps < (energy i).capacity_mwh then
      s.soc i t.succ = s.soc i t.castSucc +
        ((s.pch i t - s.pdis i t) * dtUpperH) / (energy i).capacity_mwh
    else
      s.soc i t.succ = s.soc i t.castSucc) ∧
  (∀ sc t, forecast t + scenarios sc t =
      totalSlowDispatchACStoch energy s t +
      totalSmoothDispatchAC smoothing s sc t + s.grid sc t) ∧
  (∀ sc i, s.ssoc sc i 0 = currentSocS i) ∧
  (∀ sc i t, (smoothing i).soc_min ≤ s.ssoc sc i t) ∧
  (∀ sc i t, s.ssoc sc i t ≤ (smoothing i).soc_max) ∧
  (∀ sc i t, s.sdis sc i t * (smoothing i).efficiency ≤ (smoothing i).power_m_w) ∧
  (∀ sc i t, s.sch sc i t ≤ (smoothing i).power_m_w * (smoothing i).efficiency) ∧
  (∀ sc i t, if capEps < (smoothing i).capacity_mwh then
      s.ssoc sc i t.succ = s.ssoc sc i t.castSucc +
        ((s.sch sc i t - s.sdis sc i t) * dtUpperH) / (smoothing i).capacity_mwh
    else
      s.ssoc sc i t.succ = s.ssoc sc i t.castSucc)

instance {nE nS m T : ℕ} (energy : Fin nE → Asset) (smoothing : Fin nS → Asset)
    (cE : Fin nE → ℚ) (cS : Fin nS → ℚ) (forecast : Fin T → ℚ)
    (scenarios : Fin m → Fin T → ℚ) (s : StochSol nE nS m T) :
    Decidable (StochFeasible energy smoothing cE cS forecast scenarios s) := by
  unfold StochFeasible
  infer_instance

/-- Post-processing of solve_stochastic_upper_level.  The scenario count is
m + 1 because the success branch reads grid_exchange.value[0, :].  On success
it returns the first-stage AC dispatch per energy asset and the scenario-0
grid plan; on failure it returns a dispatch dictionary filled with
np.zeros(PH_upper) for every energy asset and a zero grid plan. -/
def solveStochasticUpperLevel {nE nS m T : ℕ} (energy : Fin nE → Asset)
    (outcome : Option (StochSol nE nS (m + 1) T)) : UpperResult nE T :=
  match outcome with
  | some s =>
      { status := "optimal"
        dispatch := fun i => some (fun t =>
          s.pdis i t * (energy i).efficiency - s.pch i t / (energy i).efficiency)
        grid_exchange := s.grid 0 }
  | none =>
      { status := "failed"
        dispatch := fun _ => some (fun _ => 0)
        grid_exchange := fun _ => 0 }

/-- Candidate solution of one lower-layer group subproblem (smoothing assets
against the mid-band signal, or power assets against the high-band signal)
as built in solve_lower_level. -/
structure LowerSol (n T : ℕ) where
  pch : Fin n → Fin T → ℚ
  pdis : Fin n → Fin T → ℚ
  soc : Fin n → Fin (T + 1) → ℚ

/-- Total AC dispatch of a lower-layer group. -/
def totalLowerDispatchAC {n T : ℕ} (assets : Fin n → Asset) (s : LowerSol n T)
    (t : Fin T) : ℚ :=
  ∑ i, (s.pdis i t * (assets i).efficiency - s.pch i t / (assets i).efficiency)

/-- Constraint set of one lower-layer group subproblem, transcribed from
solve_lower_level (lines 92 to 115 for the smoothing group, 128 to 150 for
the power group, identical in form): nonnegativity, SOC recursion with
dt_h = hess.dt_s / 3600 and no capacity guard, rating caps, initial SOC
pinning and SOC box bounds. -/
def LowerFeasible {n T : ℕ} (assets : Fin n → Asset) (currentSoc : Fin n → ℚ)
    (dtH : ℚ) (s : LowerSol n T) : Prop :=
  (∀ i t, 0 ≤ s.pch i t) ∧
  (∀ i t, 0 ≤ s.pdis i t) ∧
  (∀ i t, s.soc i t.succ = s.soc i t.castSucc +
      ((s.pch i t - s.pdis i t) * dtH) / (assets i).capacity_mwh) ∧
  (∀ i t, s.pdis i t * (assets i).efficiency ≤ (assets i).power_m_w) ∧
  (∀ i t, s.pch i t ≤ (assets i).power_m_w * (assets i).efficiency) ∧
  (∀ i, s.soc i 0 = currentSoc i) ∧
  (∀ i t, (assets i).soc_min ≤ s.soc i t) ∧
  (∀ i t, s.soc i t ≤ (assets i).soc_max)

instance {n T : ℕ} (assets : Fin n → Asset) (currentSoc : Fin n → ℚ) (dtH : ℚ)
    (s : LowerSol n T) : Decidable (LowerFeasible assets currentSoc dtH s) := by
  unfold LowerFeasible
  infer_instance

/-- Objective of one lower-layer group subproblem: a fixed tracking weight
(100 for the smoothing group, 1000 for the power group) times the sum of
squares of the deviation between the group total AC dispatch and its task
signal. -/
def lowerObjective {n T : ℕ} (assets : Fin n → Asset) (weight : ℚ)
    (signal : Fin T → ℚ) (s : LowerSol n T) : ℚ :=
  weight * ∑ t, (totalLowerDispatchAC assets s t - signal t) ^ 2

/-- Optimality of a lower-layer group solution: feasible, and of objective
value no larger than any other feasible point.  A solver finishing with
status optimal delivers such a point. -/
def IsOptimalLower {n T : ℕ} (assets : Fin n → Asset) (currentSoc : Fin n → ℚ)
    (dtH : ℚ) (weight : ℚ) (signal : Fin T → ℚ) (s : LowerSol n T) : Prop :=
  LowerFeasible assets currentSoc dtH s ∧
  ∀ s2, LowerFeasible assets currentSoc dtH s2 →
    lowerObjective assets weight signal s ≤ lowerObjective assets weight signal s2

/-- Dispatch command applied from a solved lower-layer group: only the first
timestep of the plan, converted to the AC side, exactly as in
solve_lower_level where dispatch_ac is computed from value[0] of the charge
and discharge plans; a failed group gets zero for every unit. -/
def lowerGroupDispatch {n T : ℕ} (assets : Fin n → Asset)
    (outcome : Option (LowerSol n (T + 1))) : Fin n → ℚ :=
  match outcome with
  | some s => fun i =>
      s.pdis i 0 * (assets i).efficiency - s.pch i 0 / (assets i).efficiency
  | none => fun _ => 0

/-- Result of solve_lower_level: the final_dispatch dictionary, whose keys
split into the smoothing group and the power group entries. -/
def solveLowerLevel {nS nP T : ℕ} (smoothing : Fin nS → Asset)
    (power : Fin nP → Asset) (outcomeS : Option (LowerSol nS (T + 1)))
    (outcomeP : Option (LowerSol nP (T + 1))) : (Fin nS → ℚ) × (Fin nP → ℚ) :=
  (lowerGroupDispatch smoothing outcomeS, lowerGroupDispatch power outcomeP)

/-- Exception classes distinguished by the try blocks of solve_with_fallback:
cp.error.SolverError, ImportError, AttributeError, and any other exception
class (for example cp.error.DCPError or a KeyError). -/
inductive ExcKind where
  | solverError
  | importError
  | attributeError
  | otherExc
deriving DecidableEq

/-- Outcome of one problem.solve attempt: either the call raised an
exception, or it finished and left problem.status equal to the given
string. -/
inductive AttemptOutcome where
  | raised (e : ExcKind)
  | finished (st : String)
deriving DecidableEq

/-- Statuses accepted by solve_with_fallback. -/
def optimalStatuses : List String := ["optimal", "optimal_inaccurate"]

/-- Inner try block of solve_with_fallback (V6.0): the ECOS attempt with
max_iters=500 and abstol=1e-6.  If it finishes with an accepted status the
function returns True; if it finishes with any other status the code raises
a SolverError that the inner except clause immediately catches, logging and
returning False; if the attempt itself raises, only cp.error.SolverError is
caught (returning False with the status left from before), and every other
exception class propagates to the caller. -/
def fallbackAttempt (prevStatus : Option String)
    (secondary : AttemptOutcome) : Except ExcKind (Bool × Option String) :=
  match secondary with
  | .finished st =>
      if st ∈ optimalStatuses then .ok (true, some st)
      else .ok (false, some st)
  | .raised e =>
      if e = .solverError then .ok (false, prevStatus)
      else .error e

/-- Model of solve_with_fallback in
Hierarchical_determined_MPC/mpc_ems_hierarchical.py (identical in
mpc_ems_stochastic.py), parameterized by the outcome of each of the two
problem.solve attempts.  The outer try attempts GUROBI; a finish with an
accepted status returns True, a finish with any other status raises a
SolverError that the outer except clause catches, and a raised exception is
caught only when its class is cp.error.SolverError, ImportError or
AttributeError; in the caught cases control falls to the ECOS fallback.
The value is the pair (returned boolean, final problem.status), or the
exception that propagated. -/
def solveWithFallback (primary secondary : AttemptOutcome) :
    Except ExcKind (Bool × Option String) :=
  match primary with
  | .finished st =>
      if st ∈ optimalStatuses then .ok (true, some st)
      else fallbackAttempt (some st) secondary
  | .raised e =>
      if e = .solverError ∨ e = .importError ∨ e = .attributeError then
        fallbackAttempt none secondary
      else .error e

/-- SOC-related constraints appended per slow asset by solve_upper_layer in
the root mpc_ems_hierarchical.py (V1.8, lines 56 to 65): nonnegative slack
profiles soc_slack_min_upper and soc_slack_max_upper (cvxpy nonneg=True),
initial SOC pinning, and box bounds relaxed by the slacks, which the
objective penalizes at weight 1e5.  This is the SOC-related subset of that
problem constraint set; the remaining constraints only further restrict the
feasible set. -/
def UpperLayerSocFeasible (a : Asset) (currentSoc : ℚ) {T : ℕ}
    (soc slackMin slackMax : Fin (T + 1) → ℚ) : Prop :=
  (∀ t, 0 ≤ slackMin t) ∧
  (∀ t, 0 ≤ slackMax t) ∧
  soc 0 = currentSoc ∧
  (∀ t, a.soc_min - slackMin t ≤ soc t) ∧
  (∀ t, soc t ≤ a.soc_max + slackMax t)

instance (a : Asset) (currentSoc : ℚ) {T : ℕ}
    (soc slackMin slackMax : Fin (T + 1) → ℚ) :
    Decidable (UpperLayerSocFeasible a currentSoc soc slackMin slackMax) := by
  unfold UpperLayerSocFeasible
  infer_instance

/-- Abstraction of the pywt wavelet-packet calls made by
decompose_power_signal.  get_level(level, order=freq) yields leafCount
terminal nodes in increasing-frequency order.  Reconstructing a wavelet
packet carrying only the coefficients of a set of leaves (the helper
reconstruct_from_paths) is linear in those coefficients, so the
reconstruction from a set of leaf paths is the pointwise sum, over the set,
of the contribution bandRecon b of each single leaf, a time series of
length reconLen.  With an explicit maxlevel the pywt WaveletPacket does not
cap the depth by the data length: each dwt in symmetric mode maps a series
of length k to one of length (k + 7) / 2 for the db4 filter (dec_len 8), so
get_level(3) produces 2^3 leaves for every nonempty input. -/
structure WPOracle where
  leafCount : ℕ
  reconLen : ℕ
  bandRecon : ℕ → ℕ → ℚ

/-- Reconstruction of the signal carried by a set of leaf paths. -/
def reconFromPaths (o : WPOracle) (bs : List ℕ) : List ℚ :=
  (List.range o.reconLen).map fun t => (bs.map fun b => o.bandRecon b t).sum

/-- np.zeros(original_len) as a rational list. -/
def zeroSignal (n : ℕ) : List ℚ := List.replicate n 0

/-- Leaf paths assigned to the low band: node_paths[:2]. -/
def lowPaths (o : WPOracle) : List ℕ := (List.range o.leafCount).take 2

/-- Leaf paths assigned to the mid band: node_paths[2:4]. -/
def midPaths (o : WPOracle) : List ℕ := ((List.range o.leafCount).drop 2).take 2

/-- Leaf paths assigned to the high band: node_paths[4:]. -/
def highPaths (o : WPOracle) : List ℕ := (List.range o.leafCount).drop 4

/-- decompose_power_signal of
Hierarchical_stochastic_MPC/main_simulation_stochastic.py (lines 37 to 86):
validate the leaf-node count against 2^level; on a mismatch return three
zero series of the original length when the input is shorter than 2^level,
and raise a ValueError otherwise; on a match partition the
frequency-ordered leaves as [:2], [2:4], [4:], reconstruct each group, and
truncate each reconstruction to the original length. -/
def decomposeStoch (signal : List ℚ) (o : WPOracle) (level : ℕ) :
    Except String (List ℚ × List ℚ × List ℚ) :=
  let n := signal.length
  if o.leafCount ≠ 2 ^ level then
    if n < 2 ^ level then
      .ok (zeroSignal n, zeroSignal n, zeroSignal n)
    else
      .error "wavelet packet node count mismatch"
  else
    .ok ((reconFromPaths o (lowPaths o)).take n,
         (reconFromPaths o (midPaths o)).take n,
         (reconFromPaths o (highPaths o)).take n)

/-- decompose_power_signal of main_simulation_hierarchical.py (lines 34 to
74): the same partition and reconstruction with no validation of the leaf
count and no length check. -/
def decomposeHier (signal : List ℚ) (o : WPOracle) (_level : ℕ) :
    List ℚ × List ℚ × List ℚ :=
  let n := signal.length
  ((reconFromPaths o (lowPaths o)).take n,
   (reconFromPaths o (midPaths o)).take n,
   (reconFromPaths o (highPaths o)).take n)

/-- Minimum input length for a depth-level decomposition under the pywt
convention dwt_max_level(n, dec_len) = floor(log2(n / (dec_len - 1))):
depth level needs n at least (dec_len - 1) * 2 ^ level, which is 56 for the
db4 filter (dec_len 8) at level 3. -/
def minSignalLen (level : ℕ) : ℕ := 7 * 2 ^ level

/-- State of FlywheelModel (high_power_density_group/flywheel_simulation.py)
relevant to its dynamics: the angular speed omega together with the
constructor-derived physical parameters (moment of inertia J, friction
coefficient kf, speed window, converter efficiencies, torque and power
ratings, timestep dt_s) and the soc_min attribute that get_soc returns in
the degenerate-window case.  The default construction (rated 5 MW, 0.25
MWh, 15000 rpm top speed, ratio 0.3, initial soc 0.5) yields strictly
positive J and kf and a speed strictly inside the window. -/
structure FlywheelState where
  omega : ℚ
  J : ℚ
  kf : ℚ
  omegaMin : ℚ
  omegaMax : ℚ
  etaCh : ℚ
  etaDis : ℚ
  ratedTorqueMg : ℚ
  ratedPowerW : ℚ
  socMin : ℚ
  dt : ℚ
deriving DecidableEq

/-- np.clip(x, lo, hi). -/
def npClip (x lo hi : ℚ) : ℚ := min (max x lo) hi

namespace FlywheelState

/-- get_soc: with a degenerate speed window (range of squared speeds at most
1e-6) return soc_min, otherwise the normalized squared-speed position. -/
def getSoc (st : FlywheelState) : ℚ :=
  let rangeSq := st.omegaMax ^ 2 - st.omegaMin ^ 2
  if rangeSq ≤ 1 / 1000000 then st.socMin
  else (st.omega ^ 2 - st.omegaMin ^ 2) / rangeSq

/-- Internal helper _get_electromagnetic_torque. -/
def electromagneticTorque (st : FlywheelState) (powerElec : ℚ)
    (isCharging : Bool) : ℚ :=
  let currentOmega := if 1 / 1000 < st.omega then st.omega else 1 / 1000
  let tauMg :=
    if isCharging then powerElec * st.etaCh / currentOmega
    else -(powerElec / (currentOmega * st.etaDis))
  npClip tauMg (-st.ratedTorqueMg) st.ratedTorqueMg

/-- Internal helper _get_loss_torque: kf * omega. -/
def lossTorque (st : FlywheelState) : ℚ := st.kf * st.omega

/-- Internal helper _get_net_torque. -/
def netTorque (st : FlywheelState) (tauMg : ℚ) : ℚ := tauMg - st.lossTorque

/-- Internal helper _update_angular_velocity: integrate the net torque for
one step and clip the speed into the operating window. -/
def updateAngularVelocity (st : FlywheelState) (tauNet timeS : ℚ) :
    FlywheelState :=
  { st with omega := npClip (st.omega + tauNet / st.J * timeS) st.omegaMin st.omegaMax }

/-- get_available_charge_power. -/
def availableChargePower (st : FlywheelState) : ℚ :=
  if st.omegaMax ≤ st.omega then 0
  else min st.ratedPowerW (st.ratedTorqueMg * st.omega / st.etaCh)

/-- get_available_discharge_power. -/
def availableDischargePower (st : FlywheelState) : ℚ :=
  if st.omega ≤ st.omegaMin then 0
  else min st.ratedPowerW (st.ratedTorqueMg * st.omega * st.etaDis)

/-- idle_loss: standby friction only, electromagnetic torque zero. -/
def idleLoss (st : FlywheelState) (timeS : ℚ) : FlywheelState :=
  st.updateAngularVelocity (st.netTorque 0) timeS

/-- charge (we drop the bookkeeping string self.state, which has no effect
on the dynamics). -/
def fwCharge (st : FlywheelState) (powerElec timeS : ℚ) : FlywheelState :=
  let p := min powerElec st.availableChargePower
  if p ≤ 0 then st.idleLoss timeS
  else st.updateAngularVelocity (st.netTorque (st.electromagneticTorque p true)) timeS

/-- discharge. -/
def fwDischarge (st : FlywheelState) (powerElec timeS : ℚ) : FlywheelState :=
  let p := min powerElec st.availableDischargePower
  if p ≤ 0 then st.idleLoss timeS
  else st.updateAngularVelocity (st.netTorque (st.electromagneticTorque p false)) timeS

/-- update_state: positive command discharges, negative charges with the
absolute value, zero idles; each for one timestep dt_s. -/
def updateState (st : FlywheelState) (dispatchPowerW : ℚ) : FlywheelState :=
  if 0 < dispatchPowerW then st.fwDischarge dispatchPowerW st.dt
  else if dispatchPowerW < 0 then st.fwCharge |dispatchPowerW| st.dt
  else st.idleLoss st.dt

end FlywheelState

/-- Value of one dispatch dictionary entry of an upper-layer result, zero
when the key is absent. -/
def dispatchEntry {n T : ℕ} (r : UpperResult n T) (i : Fin n) (t : Fin T) : ℚ :=
  match r.dispatch i with
  | some f => f t
  | none => 0

/-- Asset with unit efficiency, unit rating, unit capacity and SOC window
[0, 1], used by the concrete witnesses. -/
def unitAsset : Asset := ⟨1, 1, 1, 0, 1, 0⟩

/-- Idle feasible point of the deterministic upper problem: no charging, no
discharging, SOC constant at one half, no grid exchange. -/
def exUpperSol : UpperSol 1 1 :=
  ⟨fun _ _ => 0, fun _ _ => 0, fun _ _ => 1 / 2, fun _ => 0⟩

/-- Idle feasible point of the stochastic upper problem with one energy
asset, one smoothing asset and one scenario. -/
def exStochSol : StochSol 1 1 1 1 :=
  ⟨fun _ _ => 0, fun _ _ => 0, fun _ _ => 1 / 2,
   fun _ _ _ => 0, fun _ _ _ => 0, fun _ _ _ => 1 / 2, fun _ _ => 0⟩

/-- Constant one-half initial SOC profile for one asset. -/
def exCur1 : Fin 1 → ℚ := fun _ => 1 / 2

/-- All-zero task signal over one step. -/
def zeroSig1 : Fin 1 → ℚ := fun _ => 0

/-- All-zero scenario perturbation, one scenario over one step. -/
def zeroScen1 : Fin 1 → Fin 1 → ℚ := fun _ _ => 0

/-- C1: every feasible point of the deterministic upper-layer problem, hence
every returned optimal plan, balances the supplied net-load task signal at
each horizon step against the returned total asset AC dispatch plus the
returned grid exchange, exactly (so within any positive tolerance); in the
stochastic variant the balance holds per scenario against that scenario
perturbed net load (forecast plus scenario error), counting the returned
first-stage dispatch, the scenario recourse dispatch of the smoothing
assets, and the scenario grid exchange. -/
theorem upper_power_balance {n T : ℕ} (assets : Fin n → Asset)
    (cur : Fin n → ℚ) (signal : Fin T → ℚ) (s : UpperSol n T)
    (hs : UpperFeasible assets cur signal s)
    {nE nS m T2 : ℕ} (energy : Fin nE → Asset) (smoothing : Fin nS → Asset)
    (cE : Fin nE → ℚ) (cS : Fin nS → ℚ) (forecast : Fin T2 → ℚ)
    (scenarios : Fin (m + 1) → Fin T2 → ℚ) (z : StochSol nE nS (m + 1) T2)
    (hz : StochFeasible energy smoothing cE cS forecast scenarios z) :
    (∀ t, signal t =
        (∑ i, dispatchEntry (solveUpperLevel assets (some s)) i t) +
        (solveUpperLevel assets (some s)).grid_exchange t) ∧
    (∀ sc t, forecast t + scenarios sc t =
        (∑ i, dispatchEntry (solveStochasticUpperLevel energy (some z)) i t) +
        totalSmoothDispatchAC smoothing z sc t + z.grid sc t) := by
  obtain ⟨_, _, hbal, _⟩ := hs
  obtain ⟨_, _, _, _, _, _, _, _, _, _, hbalz, _⟩ := hz
  constructor
  · intro t
    simpa [dispatchEntry, solveUpperLevel, totalSlowDispatchAC] using hbal t
  · intro sc t
    simpa [dispatchEntry, solveStochasticUpperLevel, totalSlowDispatchACStoch]
      using hbalz sc t

/-- C1 witness: the balance theorem applied to the idle feasible points of
the two concrete one-asset, one-step problems. -/
theorem upper_power_balance_witness :
    (∀ t, zeroSig1 t =
        (∑ i, dispatchEntry
          (solveUpperLevel (fun _ : Fin 1 => unitAsset) (some exUpperSol)) i t) +
        (solveUpperLevel (fun _ : Fin 1 => unitAsset) (some exUpperSol)).grid_exchange t) ∧
    (∀ sc t, zeroSig1 t + zeroScen1 sc t =
        (∑ i, dispatchEntry
          (solveStochasticUpperLevel (fun _ : Fin 1 => unitAsset) (some exStochSol)) i t) +
        totalSmoothDispatchAC (fun _ : Fin 1 => unitAsset) exStochSol sc t +
        exStochSol.grid sc t) :=
  upper_power_balance (fun _ => unitAsset) exCur1 zeroSig1 exUpperSol
    (by norm_num [UpperFeasible, unitAsset, exCur1, zeroSig1, exUpperSol,
      totalSlowDispatchAC, dtUpperH, capEps, Fin.forall_fin_one, Fin.sum_univ_one])
    (fun _ => unitAsset) (fun _ => unitAsset) exCur1 exCur1 zeroSig1 zeroScen1
    exStochSol
    (by norm_num [StochFeasible, unitAsset, exCur1, zeroSig1, zeroScen1, exStochSol,
      totalSlowDispatchACStoch, totalSmoothDispatchAC, dtUpperH, capEps,
      Fin.forall_fin_one, Fin.sum_univ_one])

/-- C2: in every feasible point of the deterministic upper-layer problem,
hence in every successfully returned plan, each asset SOC trajectory starts
exactly at the measured current SOC and stays inside the hard window
soc_min to soc_max at every step (slack disabled, epsilon zero); under the
SOC constraints of the slack-enabled V1.8 solve_upper_layer the trajectory
is pinned the same way and at every step stays within the window relaxed by
a nonnegative epsilon, namely the larger of the two penalized slack values
at that step. -/
theorem soc_pinning_and_bounds {n T : ℕ} (assets : Fin n → Asset)
    (cur : Fin n → ℚ) (signal : Fin T → ℚ) (s : UpperSol n T)
    (hs : UpperFeasible assets cur signal s)
    (a : Asset) (c0 : ℚ) {T2 : ℕ} (soc2 slackMin slackMax : Fin (T2 + 1) → ℚ)
    (h2 : UpperLayerSocFeasible a c0 soc2 slackMin slackMax) :
    ((∀ i, s.soc i 0 = cur i) ∧
     (∀ i t, (assets i).soc_min ≤ s.soc i t ∧ s.soc i t ≤ (assets i).soc_max)) ∧
    (soc2 0 = c0 ∧
     ∀ t, ∃ eps, 0 ≤ eps ∧
       a.soc_min - eps ≤ soc2 t ∧ soc2 t ≤ a.soc_max + eps) := by
  obtain ⟨_, _, _, _, _, _, hpin, hlo, hhi⟩ := hs
  obtain ⟨hm, hM, hpin2, hlo2, hhi2⟩ := h2
  refine ⟨⟨hpin, fun i t => ⟨hlo i t, hhi i t⟩⟩, hpin2, fun t =>
    ⟨max (slackMin t) (slackMax t), le_trans (hm t) (le_max_left _ _), ?_, ?_⟩⟩
  · exact le_trans (by gcongr; exact le_max_left _ _) (hlo2 t)
  · exact le_trans (hhi2 t) (by gcongr; exact le_max_right _ _)

/-- Zero-slack SOC profile witnessing the V1.8 SOC constraints. -/
def exSocProfile : Fin 1 → ℚ := fun _ => 1 / 2

/-- Zero slack profile. -/
def exZeroSlack : Fin 1 → ℚ := fun _ => 0

/-- C2 witness: the pinning and bounds theorem applied to the concrete idle
feasible point and to a concrete slack-free V1.8 SOC profile. -/
theorem soc_pinning_and_bounds_witness :
    ((∀ i, exUpperSol.soc i 0 = exCur1 i) ∧
     (∀ i t, (unitAsset).soc_min ≤ exUpperSol.soc i t ∧
       exUpperSol.soc i t ≤ (unitAsset).soc_max)) ∧
    (exSocProfile 0 = 1 / 2 ∧
     ∀ t, ∃ eps, 0 ≤ eps ∧
       unitAsset.soc_min - eps ≤ exSocProfile t ∧
       exSocProfile t ≤ unitAsset.soc_max + eps) :=
  soc_pinning_and_bounds (fun _ => unitAsset) exCur1 zeroSig1 exUpperSol
    (by norm_num [UpperFeasible, unitAsset, exCur1, zeroSig1, exUpperSol,
      totalSlowDispatchAC, dtUpperH, capEps, Fin.forall_fin_one, Fin.sum_univ_one])
    unitAsset (1 / 2) exSocProfile exZeroSlack exZeroSlack
    (by norm_num [UpperLayerSocFeasible, unitAsset, exSocProfile, exZeroSlack,
      Fin.forall_fin_one])

/-- C3 counterexample: when the primary GUROBI attempt raises an exception
outside the caught classes (cp.error.SolverError, ImportError,
AttributeError) - for example a cvxpy DCPError - solve_with_fallback
propagates it to the caller without trying the fallback solver, even though
the fallback would have finished with status optimal, refuting the claim
that it returns False and never propagates an exception. -/
theorem solve_with_fallback_propagates :
    solveWithFallback (AttemptOutcome.raised ExcKind.otherExc)
      (AttemptOutcome.finished "optimal") = Except.error ExcKind.otherExc := by
  simp [solveWithFallback]

/-- C3 (amended): solve_with_fallback tries the primary GUROBI attempt
first (an accepted primary status returns True regardless of what the
fallback would do) and only on a caught failure tries the ECOS fallback
with an explicit iteration cap and loosened tolerance; whenever every
exception the attempts raise is of a caught class (SolverError, ImportError
or AttributeError from the primary attempt, SolverError from the fallback),
it raises nothing and returns True exactly when the final problem status is
optimal or optimal_inaccurate; exceptions of any other class propagate to
the caller. -/
theorem solve_with_fallback_contract (primary secondary : AttemptOutcome)
    (hp : ∀ e, primary = AttemptOutcome.raised e →
      e = ExcKind.solverError ∨ e = ExcKind.importError ∨ e = ExcKind.attributeError)
    (hq : ∀ e, secondary = AttemptOutcome.raised e → e = ExcKind.solverError) :
    (∃ b st, solveWithFallback primary secondary = Except.ok (b, st) ∧
      (b = true ↔ st = some "optimal" ∨ st = some "optimal_inaccurate")) ∧
    (∀ s1 s2 stp, stp ∈ optimalStatuses →
      solveWithFallback (AttemptOutcome.finished stp) s1 =
      solveWithFallback (AttemptOutcome.finished stp) s2) := by
  constructor
  · cases primary with
    | raised e =>
      have he := hp e rfl
      rw [solveWithFallback, if_pos he]
      cases secondary with
      | finished st2 =>
        by_cases hm : st2 ∈ optimalStatuses
        · refine ⟨true, some st2, by simp [fallbackAttempt, hm], ?_⟩
          simp only [optimalStatuses, List.mem_cons, List.mem_singleton,
            List.not_mem_nil, or_false] at hm
          rcases hm with h | h <;> simp [h]
        · refine ⟨false, some st2, by simp [fallbackAttempt, hm], ?_⟩
          simp only [optimalStatuses, List.mem_cons, List.mem_singleton,
            List.not_mem_nil, or_false, not_or] at hm
          simp [hm.1, hm.2]
      | raised e2 =>
        have he2 := hq e2 rfl
        exact ⟨false, none, by simp [fallbackAttempt, he2], by simp⟩
    | finished st =>
      by_cases hm : st ∈ optimalStatuses
      · refine ⟨true, some st, by simp [solveWithFallback, hm], ?_⟩
        simp only [optimalStatuses, List.mem_cons, List.mem_singleton,
          List.not_mem_nil, or_false] at hm
        rcases hm with h | h <;> simp [h]
      · rw [solveWithFallback, if_neg hm]
        have hm2 := hm
        simp only [optimalStatuses, List.mem_cons, List.mem_singleton,
          List.not_mem_nil, or_false, not_or] at hm2
        cases secondary with
        | finished st2 =>
          by_cases hm3 : st2 ∈ optimalStatuses
          · refine ⟨true, some st2, by simp [fallbackAttempt, hm3], ?_⟩
            simp only [optimalStatuses, List.mem_cons, List.mem_singleton,
              List.not_mem_nil, or_false] at hm3
            rcases hm3 with h | h <;> simp [h]
          · refine ⟨false, some st2, by simp [fallbackAttempt, hm3], ?_⟩
            simp only [optimalStatuses, List.mem_cons, List.mem_singleton,
              List.not_mem_nil, or_false, not_or] at hm3
            simp [hm3.1, hm3.2]
        | raised e2 =>
          have he2 := hq e2 rfl
          exact ⟨false, some st, by simp [fallbackAttempt, he2], by simp [hm2.1, hm2.2]⟩
  · intro s1 s2 stp hstp
    simp [solveWithFallback, hstp]

/-- C3 witness: the amended contract applied to a primary attempt that
raises a SolverError and a fallback attempt that finishes optimal. -/
theorem solve_with_fallback_contract_witness :
    (∃ b st, solveWithFallback (AttemptOutcome.raised ExcKind.solverError)
        (AttemptOutcome.finished "optimal") = Except.ok (b, st) ∧
      (b = true ↔ st = some "optimal" ∨ st = some "optimal_inaccurate")) ∧
    (∀ s1 s2 stp, stp ∈ optimalStatuses →
      solveWithFallback (AttemptOutcome.finished stp) s1 =
      solveWithFallback (AttemptOutcome.finished stp) s2) :=
  solve_with_fallback_contract (AttemptOutcome.raised ExcKind.solverError)
    (AttemptOutcome.finished "optimal")
    (fun _ he => by cases he; exact Or.inl rfl)
    (fun _ he => AttemptOutcome.noConfusion he)

/-- C4 counterexample: when no solver converges, the deterministic
solve_upper_level returns status failed with an empty dispatch dictionary -
the energy asset has no entry at all, rather than the claimed zero-filled
per-asset fallback plan (only the stochastic variant zero-fills it; the
caller is the one that substitutes zeros). -/
theorem upper_failed_dispatch_is_empty :
    (solveUpperLevel (fun _ : Fin 1 => unitAsset)
      (none : Option (UpperSol 1 1))).status = "failed" ∧
    (solveUpperLevel (fun _ : Fin 1 => unitAsset)
      (none : Option (UpperSol 1 1))).dispatch 0 ≠ some (fun _ => 0) := by
  exact ⟨rfl, by simp [solveUpperLevel]⟩

/-- C4 (amended): on solver failure every layer returns its designated
failure value without raising: the deterministic upper layer returns status
failed, an empty dispatch dictionary and a zero grid-exchange plan (its
caller substitutes the zero dispatch), the stochastic upper layer returns
status failed, a zero-filled plan for every energy asset and a zero
grid-exchange plan, and the lower layer returns zero dispatch for every
asset of the failed group for the current step. -/
theorem failure_zero_fallback_plans {n T nE nS m T2 nS2 nP T3 : ℕ}
    (assets : Fin n → Asset) (energy : Fin nE → Asset)
    (smoothing : Fin nS2 → Asset) (power : Fin nP → Asset) :
    ((solveUpperLevel assets (none : Option (UpperSol n T))).status = "failed" ∧
     (∀ i, (solveUpperLevel assets (none : Option (UpperSol n T))).dispatch i = none) ∧
     (∀ t, (solveUpperLevel assets (none : Option (UpperSol n T))).grid_exchange t = 0)) ∧
    ((solveStochasticUpperLevel energy
        (none : Option (StochSol nE nS (m + 1) T2))).status = "failed" ∧
     (∀ i, (solveStochasticUpperLevel energy
        (none : Option (StochSol nE nS (m + 1) T2))).dispatch i = some (fun _ => 0)) ∧
     (∀ t, (solveStochasticUpperLevel energy
        (none : Option (StochSol nE nS (m + 1) T2))).grid_exchange t = 0)) ∧
    ((solveLowerLevel smoothing power (none : Option (LowerSol nS2 (T3 + 1)))
        (none : Option (LowerSol nP (T3 + 1)))).1 = (fun _ => 0) ∧
     (solveLowerLevel smoothing power (none : Option (LowerSol nS2 (T3 + 1)))
        (none : Option (LowerSol nP (T3 + 1)))).2 = fun _ => 0) :=
  ⟨⟨rfl, fun _ => rfl, fun _ => rfl⟩, ⟨rfl, fun _ => rfl, fun _ => rfl⟩, rfl, rfl⟩

/-- Length of a truncated band reconstruction. -/
lemma reconFromPaths_take_length (o : WPOracle) (bs : List ℕ) (n : ℕ)
    (hn : n ≤ o.reconLen) : ((reconFromPaths o bs).take n).length = n := by
  simp [reconFromPaths, hn]

/-- Entry of a truncated band reconstruction: the sum of the contributions
of the selected leaves at that sample. -/
lemma reconFromPaths_take_getD (o : WPOracle) (bs : List ℕ) (n t : ℕ)
    (ht : t < n) (hn : n ≤ o.reconLen) :
    ((reconFromPaths o bs).take n).getD t 0 = (bs.map fun b => o.bandRecon b t).sum := by
  have hlen : t < ((reconFromPaths o bs).take n).length := by
    rw [reconFromPaths_take_length o bs n hn]
    exact ht
  rw [List.getD_eq_getElem _ _ hlen, List.getElem_take]
  simp [reconFromPaths]

/-- Short concrete input signal of length 4, below the depth-3 minimum. -/
def exShortSig : List ℚ := [1, 2, 3, 4]

/-- Wavelet-packet response with the 2^3 leaves that pywt produces for any
nonempty input under an explicit maxlevel of 3; only leaf 0 contributes,
and only at sample 0. -/
def exOracle8 : WPOracle := ⟨8, 8, fun b t => if b = 0 ∧ t = 0 then 1 else 0⟩

/-- Abnormal wavelet-packet response reporting 5 leaves. -/
def exOracle5 : WPOracle := ⟨5, 8, fun _ _ => 1⟩

/-- Abnormal wavelet-packet response reporting 4 leaves on a long signal. -/
def exOracle4 : WPOracle := ⟨4, 56, fun _ t => if t = 0 then 1 else 0⟩

/-- Low band returned for the short signal under the normal 8-leaf
response. -/
def exShortLow : List ℚ := (reconFromPaths exOracle8 (lowPaths exOracle8)).take 4

/-- Mid band returned for the short signal under the normal 8-leaf
response. -/
def exShortMid : List ℚ := (reconFromPaths exOracle8 (midPaths exOracle8)).take 4

/-- High band returned for the short signal under the normal 8-leaf
response. -/
def exShortHigh : List ℚ := (reconFromPaths exOracle8 (highPaths exOracle8)).take 4

/-- C5 counterexample: a length-4 input is well below the depth-3 minimum
length of 56 for the db4 filter, yet with the 2^3 leaves that pywt actually
produces under an explicit maxlevel the stochastic decomposer takes the
normal branch and returns a non-zero low band (entry 0 equals 1, not 0);
the zero-fallback branch is reachable only when the leaf count also
deviates from 2^3.  The deterministic-variant decomposer has no length
check at all and returns the same nonzero output. -/
theorem decompose_short_signal_not_zeroed :
    exShortSig.length < minSignalLen 3 ∧
    decomposeStoch exShortSig exOracle8 3 =
      Except.ok (exShortLow, exShortMid, exShortHigh) ∧
    exShortLow.getD 0 0 = 1 ∧
    (zeroSignal exShortSig.length).getD 0 0 = 0 ∧
    decomposeHier exShortSig exOracle8 3 = (exShortLow, exShortMid, exShortHigh) := by
  refine ⟨by decide, ?_, ?_, by simp [zeroSignal, exShortSig], ?_⟩
  · simp [decomposeStoch, exShortSig, exOracle8, exShortLow, exShortMid, exShortHigh]
  · rw [exShortLow, reconFromPaths_take_getD _ _ _ _ (by norm_num) (by norm_num [exOracle8])]
    have hp : lowPaths exOracle8 = [0, 1] := by decide
    rw [hp]
    norm_num [exOracle8]
  · simp [decomposeHier, exShortSig, exOracle8, exShortLow, exShortMid, exShortHigh]

/-- C5 (amended): the all-zero degradation exists only in the stochastic
variant and triggers only when the transform reports a leaf count different
from 2^level while the input length is below 2^level (not below the
filter-dependent minimum): in that case three all-zero series of the
original length are returned and nothing is raised; a short input for which
the transform still yields 2^level leaves is decomposed normally, and the
deterministic-variant decomposer performs no length check at all. -/
theorem decompose_short_zero_fallback (signal : List ℚ) (o : WPOracle)
    (level : ℕ) (hleaf : o.leafCount ≠ 2 ^ level)
    (hlen : signal.length < 2 ^ level) :
    decomposeStoch signal o level =
      Except.ok (zeroSignal signal.length, zeroSignal signal.length,
        zeroSignal signal.length) ∧
    (zeroSignal signal.length).length = signal.length := by
  constructor
  · simp [decomposeStoch, hleaf, hlen]
  · simp [zeroSignal]

/-- C5 witness: the amended fallback applied to the length-4 signal with an
abnormal 5-leaf transform response. -/
theorem decompose_short_zero_fallback_witness :
    decomposeStoch exShortSig exOracle5 3 =
      Except.ok (zeroSignal exShortSig.length, zeroSignal exShortSig.length,
        zeroSignal exShortSig.length) ∧
    (zeroSignal exShortSig.length).length = exShortSig.length :=
  decompose_short_zero_fallback exShortSig exOracle5 3 (by decide) (by decide)

/-- C6 counterexample: on an input of exactly the depth-3 minimum length,
an abnormal 4-leaf transform response makes the decomposer of
main_simulation_hierarchical.py return normally instead of raising: it
silently partitions the four leaves as [0,1] to low and [2,3] to mid and
assigns no leaf at all to the high band.  Only the stochastic variant
validates the leaf count. -/
theorem decompose_hier_no_leaf_check :
    minSignalLen 3 ≤ (zeroSignal 56).length ∧
    exOracle4.leafCount ≠ 2 ^ 3 ∧
    highPaths exOracle4 = [] ∧
    decomposeHier (zeroSignal 56) exOracle4 3 =
      ((reconFromPaths exOracle4 [0, 1]).take 56,
       (reconFromPaths exOracle4 [2, 3]).take 56,
       (reconFromPaths exOracle4 []).take 56) := by
  refine ⟨by decide, by decide, by decide, ?_⟩
  have h1 : lowPaths exOracle4 = [0, 1] := by decide
  have h2 : midPaths exOracle4 = [2, 3] := by decide
  have h3 : highPaths exOracle4 = [] := by decide
  simp [decomposeHier, h1, h2, h3, zeroSignal]

/-- C6 (amended): the stochastic-variant decompose_power_signal raises a
ValueError whenever the transform reports a leaf count different from
2^level on an input at least as long as the depth-level minimum (its check
admits the zero fallback only below length 2^level); the decomposer in
main_simulation_hierarchical.py performs no such validation and partitions
whatever leaf list is returned. -/
theorem decompose_leaf_mismatch_raises (signal : List ℚ) (o : WPOracle)
    (level : ℕ) (hlen : minSignalLen level ≤ signal.length)
    (hleaf : o.leafCount ≠ 2 ^ level) :
    decomposeStoch signal o level =
      Except.error "wavelet packet node count mismatch" := by
  have h2 : ¬ signal.length < 2 ^ level := by
    refine not_lt.mpr (le_trans ?_ hlen)
    calc (2 : ℕ) ^ level = 1 * 2 ^ level := (one_mul _).symm
    _ ≤ 7 * 2 ^ level := Nat.mul_le_mul_right _ (by norm_num)
    _ = minSignalLen level := rfl
  simp [decomposeStoch, hleaf, h2]

/-- C6 witness: the raise theorem applied to a minimum-length signal with
the abnormal 4-leaf response. -/
theorem decompose_leaf_mismatch_raises_witness :
    decomposeStoch (zeroSignal 56) exOracle4 3 =
      Except.error "wavelet packet node count mismatch" :=
  decompose_leaf_mismatch_raises (zeroSignal 56) exOracle4 3 (by decide) (by decide)

/-- C7: whenever the transform yields the expected 2^3 leaves (ordered by
increasing frequency) and the reconstruction covers the input length, both
decomposer variants accept the input and partition the leaf bands by the
fixed rule lowest two to low, next two to mid, remaining four to high; the
partition is a constant of the code, the whole output depends on the input
signal only through its length, every returned series has exactly the
original input length, and each output sample is the sum of the
contributions of exactly the leaves of its group. -/
theorem decompose_band_assignment (signal : List ℚ) (o : WPOracle)
    (hleaf : o.leafCount = 2 ^ 3) (hrec : signal.length ≤ o.reconLen) :
    lowPaths o = [0, 1] ∧ midPaths o = [2, 3] ∧ highPaths o = [4, 5, 6, 7] ∧
    decomposeStoch signal o 3 =
      Except.ok ((reconFromPaths o [0, 1]).take signal.length,
                 (reconFromPaths o [2, 3]).take signal.length,
                 (reconFromPaths o [4, 5, 6, 7]).take signal.length) ∧
    decomposeHier signal o 3 =
      ((reconFromPaths o [0, 1]).take signal.length,
       (reconFromPaths o [2, 3]).take signal.length,
       (reconFromPaths o [4, 5, 6, 7]).take signal.length) ∧
    (∀ signal2 : List ℚ, signal2.length = signal.length →
      decomposeStoch signal2 o 3 = decomposeStoch signal o 3) ∧
    ((reconFromPaths o [0, 1]).take signal.length).length = signal.length ∧
    ((reconFromPaths o [2, 3]).take signal.length).length = signal.length ∧
    ((reconFromPaths o [4, 5, 6, 7]).take signal.length).length = signal.length ∧
    (∀ t, t < signal.length →
      ((reconFromPaths o [0, 1]).take signal.length).getD t 0 =
        o.bandRecon 0 t + o.bandRecon 1 t ∧
      ((reconFromPaths o [2, 3]).take signal.length).getD t 0 =
        o.bandRecon 2 t + o.bandRecon 3 t ∧
      ((reconFromPaths o [4, 5, 6, 7]).take signal.length).getD t 0 =
        o.bandRecon 4 t + o.bandRecon 5 t + o.bandRecon 6 t + o.bandRecon 7 t) := by
  have hlow : lowPaths o = [0, 1] := by rw [lowPaths, hleaf]; rfl
  have hmid : midPaths o = [2, 3] := by rw [midPaths, hleaf]; rfl
  have hhigh : highPaths o = [4, 5, 6, 7] := by rw [highPaths, hleaf]; rfl
  refine ⟨hlow, hmid, hhigh, ?_, ?_, ?_, ?_, ?_, ?_, ?_⟩
  · simp [decomposeStoch, hleaf, hlow, hmid, hhigh]
  · simp [decomposeHier, hlow, hmid, hhigh]
  · intro signal2 h
    simp [decomposeStoch, hleaf, h]
  · exact reconFromPaths_take_length o _ _ hrec
  · exact reconFromPaths_take_length o _ _ hrec
  · exact reconFromPaths_take_length o _ _ hrec
  · intro t ht
    refine ⟨?_, ?_, ?_⟩
    all_goals rw [reconFromPaths_take_getD _ _ _ _ ht hrec]
    all_goals simp [add_assoc]

/-- C7 witness: the band-assignment theorem applied to the concrete
length-4 signal and the normal 8-leaf response. -/
theorem decompose_band_assignment_witness :
    lowPaths exOracle8 = [0, 1] ∧ midPaths exOracle8 = [2, 3] ∧
    highPaths exOracle8 = [4, 5, 6, 7] ∧
    decomposeStoch exShortSig exOracle8 3 =
      Except.ok ((reconFromPaths exOracle8 [0, 1]).take exShortSig.length,
                 (reconFromPaths exOracle8 [2, 3]).take exShortSig.length,
                 (reconFromPaths exOracle8 [4, 5, 6, 7]).take exShortSig.length) ∧
    decomposeHier exShortSig exOracle8 3 =
      ((reconFromPaths exOracle8 [0, 1]).take exShortSig.length,
       (reconFromPaths exOracle8 [2, 3]).take exShortSig.length,
       (reconFromPaths exOracle8 [4, 5, 6, 7]).take exShortSig.length) ∧
    (∀ signal2 : List ℚ, signal2.length = exShortSig.length →
      decomposeStoch signal2 exOracle8 3 = decomposeStoch exShortSig exOracle8 3) ∧
    ((reconFromPaths exOracle8 [0, 1]).take exShortSig.length).length = exShortSig.length ∧
    ((reconFromPaths exOracle8 [2, 3]).take exShortSig.length).length = exShortSig.length ∧
    ((reconFromPaths exOracle8 [4, 5, 6, 7]).take exShortSig.length).length = exShortSig.length ∧
    (∀ t, t < exShortSig.length →
      ((reconFromPaths exOracle8 [0, 1]).take exShortSig.length).getD t 0 =
        exOracle8.bandRecon 0 t + exOracle8.bandRecon 1 t ∧
      ((reconFromPaths exOracle8 [2, 3]).take exShortSig.length).getD t 0 =
        exOracle8.bandRecon 2 t + exOracle8.bandRecon 3 t ∧
      ((reconFromPaths exOracle8 [4, 5, 6, 7]).take exShortSig.length).getD t 0 =
        exOracle8.bandRecon 4 t + exOracle8.bandRecon 5 t +
        exOracle8.bandRecon 6 t + exOracle8.bandRecon 7 t) :=
  decompose_band_assignment exShortSig exOracle8 (by decide) (by decide)

/-- C8: whenever the transform yields the expected 2^3 leaves, the
reconstruction covers the input length, and the filter bank reconstructs
the full leaf set to the input within the reconstruction tolerance at every
sample (the perfect-reconstruction guarantee of the wavelet filter bank),
the three returned bands sum to the input within that tolerance at every
sample, because the fixed partition covers each of the 8 leaves exactly
once; both decomposer variants return the same triple. -/
theorem decompose_additivity (signal : List ℚ) (o : WPOracle) (tol : ℚ)
    (hleaf : o.leafCount = 2 ^ 3) (hrec : signal.length ≤ o.reconLen)
    (hpr : ∀ t, t < signal.length →
      |((List.range 8).map fun b => o.bandRecon b t).sum - signal.getD t 0| < tol) :
    decomposeStoch signal o 3 = Except.ok (decomposeHier signal o 3) ∧
    ∀ t, t < signal.length →
      |(decomposeHier signal o 3).1.getD t 0 +
        (decomposeHier signal o 3).2.1.getD t 0 +
        (decomposeHier signal o 3).2.2.getD t 0 - signal.getD t 0| < tol := by
  have hlow : lowPaths o = [0, 1] := by rw [lowPaths, hleaf]; rfl
  have hmid : midPaths o = [2, 3] := by rw [midPaths, hleaf]; rfl
  have hhigh : highPaths o = [4, 5, 6, 7] := by rw [highPaths, hleaf]; rfl
  constructor
  · simp [decomposeStoch, decomposeHier, hleaf]
  · intro t ht
    have h1 : (decomposeHier signal o 3).1.getD t 0 =
        ([0, 1].map fun b => o.bandRecon b t).sum := by
      rw [decomposeHier, hlow]
      exact reconFromPaths_take_getD _ _ _ _ ht hrec
    have h2 : (decomposeHier signal o 3).2.1.getD t 0 =
        ([2, 3].map fun b => o.bandRecon b t).sum := by
      rw [decomposeHier, hmid]
      exact reconFromPaths_take_getD _ _ _ _ ht hrec
    have h3 : (decomposeHier signal o 3).2.2.getD t 0 =
        ([4, 5, 6, 7].map fun b => o.bandRecon b t).sum := by
      rw [decomposeHier, hhigh]
      exact reconFromPaths_take_getD _ _ _ _ ht hrec
    rw [h1, h2, h3]
    have hsum : ([0, 1].map fun b => o.bandRecon b t).sum +
        ([2, 3].map fun b => o.bandRecon b t).sum +
        ([4, 5, 6, 7].map fun b => o.bandRecon b t).sum =
        ((List.range 8).map fun b => o.bandRecon b t).sum := by
      rw [show List.range 8 = [0, 1, 2, 3, 4, 5, 6, 7] from rfl]
      simp
      ring
    rw [hsum]
    exact hpr t ht

/-- C8 witness: the additivity theorem applied to the concrete length-4
signal, the normal 8-leaf response, and tolerance 10. -/
theorem decompose_additivity_witness :
    decomposeStoch exShortSig exOracle8 3 =
      Except.ok (decomposeHier exShortSig exOracle8 3) ∧
    ∀ t, t < exShortSig.length →
      |(decomposeHier exShortSig exOracle8 3).1.getD t 0 +
        (decomposeHier exShortSig exOracle8 3).2.1.getD t 0 +
        (decomposeHier exShortSig exOracle8 3).2.2.getD t 0 -
        exShortSig.getD t 0| < 10 :=
  decompose_additivity exShortSig exOracle8 10 (by decide) (by decide)
    (by
      intro t ht
      have ht4 : t < 4 := by simpa [exShortSig] using ht
      interval_cases t <;>
        norm_num [show List.range 8 = [0, 1, 2, 3, 4, 5, 6, 7] from rfl,
          exOracle8, exShortSig])

/-- C9: on a successful lower-layer solve, the dispatch returned for each
asset of each group is exactly the step-0 entry of the solved discharge and
charge plans converted to AC power through the asset efficiency, and the
rest of the horizon plan is discarded: two solved plans agreeing at step 0
produce identical returned dispatch commands. -/
theorem lower_first_step_applied {nS nP T : ℕ} (smoothing : Fin nS → Asset)
    (power : Fin nP → Asset) (sS sS2 : LowerSol nS (T + 1))
    (sP sP2 : LowerSol nP (T + 1))
    (hS : ∀ i, sS2.pch i 0 = sS.pch i 0 ∧ sS2.pdis i 0 = sS.pdis i 0)
    (hP : ∀ i, sP2.pch i 0 = sP.pch i 0 ∧ sP2.pdis i 0 = sP.pdis i 0) :
    ((solveLowerLevel smoothing power (some sS) (some sP)).1 = fun i =>
      sS.pdis i 0 * (smoothing i).efficiency -
        sS.pch i 0 / (smoothing i).efficiency) ∧
    ((solveLowerLevel smoothing power (some sS) (some sP)).2 = fun i =>
      sP.pdis i 0 * (power i).efficiency - sP.pch i 0 / (power i).efficiency) ∧
    solveLowerLevel smoothing power (some sS2) (some sP2) =
      solveLowerLevel smoothing power (some sS) (some sP) := by
  refine ⟨rfl, rfl, ?_⟩
  unfold solveLowerLevel lowerGroupDispatch
  refine Prod.ext ?_ ?_
  · funext i
    simp only
    rw [(hS i).1, (hS i).2]
  · funext i
    simp only
    rw [(hP i).1, (hP i).2]

/-- Idle two-step lower-layer plan for one asset. -/
def exLowSolA : LowerSol 1 2 := ⟨fun _ _ => 0, fun _ _ => 0, fun _ _ => 1 / 2⟩

/-- Two-step lower-layer plan agreeing with the idle plan at step 0 but
discharging at step 1. -/
def exLowSolB : LowerSol 1 2 :=
  ⟨fun _ _ => 0, fun _ t => if (t : ℕ) = 0 then 0 else 1, fun _ _ => 1 / 2⟩

/-- C9 witness: the first-step theorem applied to two concrete plans per
group that agree at step 0 and differ at step 1. -/
theorem lower_first_step_applied_witness :
    ((solveLowerLevel (fun _ : Fin 1 => unitAsset) (fun _ : Fin 1 => unitAsset)
        (some exLowSolA) (some exLowSolA)).1 = fun i =>
      exLowSolA.pdis i 0 * unitAsset.efficiency -
        exLowSolA.pch i 0 / unitAsset.efficiency) ∧
    ((solveLowerLevel (fun _ : Fin 1 => unitAsset) (fun _ : Fin 1 => unitAsset)
        (some exLowSolA) (some exLowSolA)).2 = fun i =>
      exLowSolA.pdis i 0 * unitAsset.efficiency -
        exLowSolA.pch i 0 / unitAsset.efficiency) ∧
    solveLowerLevel (fun _ : Fin 1 => unitAsset) (fun _ : Fin 1 => unitAsset)
        (some exLowSolB) (some exLowSolB) =
      solveLowerLevel (fun _ : Fin 1 => unitAsset) (fun _ : Fin 1 => unitAsset)
        (some exLowSolA) (some exLowSolA) :=
  lower_first_step_applied (fun _ => unitAsset) (fun _ => unitAsset)
    exLowSolA exLowSolB exLowSolA exLowSolB
    (fun i => by simp [exLowSolA, exLowSolB])
    (fun i => by simp [exLowSolA, exLowSolB])

/-- Zero plan of a lower-layer group subproblem: no charging, no
discharging, SOC constant at the measured value. -/
def zeroLowerSol (n T : ℕ) (cur : Fin n → ℚ) : LowerSol n T :=
  ⟨fun _ _ => 0, fun _ _ => 0, fun i _ => cur i⟩

/-- Feasibility of the zero plan under admissible inputs. -/
lemma zeroLowerSol_feasible (n T : ℕ) (assets : Fin n → Asset)
    (cur : Fin n → ℚ) (dtH : ℚ) (hpow : ∀ i, 0 ≤ (assets i).power_m_w)
    (heff : ∀ i, 0 ≤ (assets i).efficiency)
    (hcur : ∀ i, (assets i).soc_min ≤ cur i ∧ cur i ≤ (assets i).soc_max) :
    LowerFeasible assets cur dtH (zeroLowerSol n T cur) := by
  refine ⟨fun i t => le_refl 0, fun i t => le_refl 0, fun i t => by simp [zeroLowerSol],
    fun i t => by simpa [zeroLowerSol] using hpow i,
    fun i t => by simpa [zeroLowerSol] using mul_nonneg (hpow i) (heff i),
    fun i => rfl, fun i t => (hcur i).1, fun i t => (hcur i).2⟩

/-- Objective value of the zero plan against the all-zero task signal. -/
lemma lowerObjective_zeroSol {n T : ℕ} (assets : Fin n → Asset) (w : ℚ)
    (cur : Fin n → ℚ) :
    lowerObjective assets w (fun _ => 0) (zeroLowerSol n T cur) = 0 := by
  simp [lowerObjective, totalLowerDispatchAC, zeroLowerSol]

/-- The tracking objective is a weighted sum of squares, hence nonnegative
for a nonnegative weight. -/
lemma lowerObjective_nonneg {n T : ℕ} (assets : Fin n → Asset) (w : ℚ)
    (signal : Fin T → ℚ) (s : LowerSol n T) (hw : 0 ≤ w) :
    0 ≤ lowerObjective assets w signal s :=
  mul_nonneg hw (Finset.sum_nonneg fun _ _ => sq_nonneg _)

/-- Two identical smoothing assets able to cancel each other. -/
def cancelAsset : Asset := ⟨1, 10, 1, 0, 1, 0⟩

/-- SOC trajectories of the canceling plan: both start at one half, the
discharging asset drops to 49/100 and the charging one rises to 51/100. -/
def cancelSoc : Fin 2 → Fin 2 → ℚ := fun i t =>
  if (t : ℕ) = 0 then 1 / 2 else if (i : ℕ) = 0 then 49 / 100 else 51 / 100

/-- One-step plan in which asset 0 discharges 1 MW AC and asset 1 charges
1 MW AC: the group total dispatch is zero at every step. -/
def cancelSol : LowerSol 2 1 :=
  ⟨fun i _ => if (i : ℕ) = 0 then 0 else 1,
   fun i _ => if (i : ℕ) = 0 then 1 else 0, cancelSoc⟩

/-- Flywheel state with the constructor-regime parameters (speed strictly
inside the window, positive inertia and friction), with clean rational
stand-ins of the same magnitudes as the default construction: the default
FlywheelModel has omega about 1160 rad/s inside the window (471, 1571),
J about 800 kg m^2 and kf about 1/200. -/
def exFlywheel : FlywheelState :=
  ⟨1000, 800, 1 / 200, 450, 1500, 49 / 50, 49 / 50, 11000, 5000000, 1 / 10, 1⟩

/-- C10 counterexample: with the all-zero task signal the canceling plan is
optimal for the smoothing subproblem (its tracking objective is zero), yet
the dispatch the code then returns for asset 0 is 1, not 0 - an optimal
solve only forces the group TOTAL to zero; and the flywheel loses SOC on
update_state(0), because idle applies the standby friction torque, so SOCs
do not remain unchanged. -/
theorem zero_signal_idle_claim_fails :
    IsOptimalLower (fun _ : Fin 2 => cancelAsset) (fun _ => 1 / 2) (1 / 100) 100
      (fun _ => 0) cancelSol ∧
    lowerGroupDispatch (fun _ : Fin 2 => cancelAsset) (some cancelSol) 0 = 1 ∧
    (1 : ℚ) ≠ 0 ∧
    (exFlywheel.updateState 0).getSoc < exFlywheel.getSoc := by
  refine ⟨⟨?_, ?_⟩, ?_, by norm_num, ?_⟩
  · norm_num [LowerFeasible, cancelSol, cancelSoc, cancelAsset,
      Fin.forall_fin_two, Fin.forall_fin_one]
    refine ⟨⟨fun t => ?_, fun t => ?_⟩, fun t => ?_, fun t => ?_⟩ <;>
      split <;> norm_num
  · intro s2 h2
    have htot : ∀ t : Fin 1,
        totalLowerDispatchAC (fun _ : Fin 2 => cancelAsset) cancelSol t = 0 := by
      intro t
      rw [totalLowerDispatchAC, Fin.sum_univ_two]
      norm_num [cancelSol, cancelAsset]
    have h0 : lowerObjective (fun _ : Fin 2 => cancelAsset) 100 (fun _ => 0)
        cancelSol = 0 := by
      rw [lowerObjective, Fin.sum_univ_one, htot 0]
      norm_num
    rw [h0]
    exact lowerObjective_nonneg _ _ _ _ (by norm_num)
  · norm_num [lowerGroupDispatch, cancelSol, cancelAsset]
  · norm_num [FlywheelState.updateState, FlywheelState.idleLoss,
      FlywheelState.netTorque, FlywheelState.lossTorque,
      FlywheelState.updateAngularVelocity, FlywheelState.getSoc, npClip,
      exFlywheel, min_def, max_def]

/-- C10 (amended): with the all-zero task signal and admissible inputs the
zero plan is feasible with objective zero, so every optimal solution of a
lower-layer group subproblem makes the group TOTAL AC dispatch zero at
every horizon step (individual assets may cancel each other, so per-asset
dispatch need not be zero); and update_state(0) does not preserve every
SOC: a flywheel with positive inertia, friction and timestep, idling
strictly above its floor speed, strictly loses SOC. -/
theorem zero_signal_optimal_total_and_idle {n T : ℕ} (assets : Fin n → Asset)
    (cur : Fin n → ℚ) (dtH w : ℚ) (hw : 0 < w)
    (hpow : ∀ i, 0 ≤ (assets i).power_m_w)
    (heff : ∀ i, 0 ≤ (assets i).efficiency)
    (hcur : ∀ i, (assets i).soc_min ≤ cur i ∧ cur i ≤ (assets i).soc_max)
    (s : LowerSol n T)
    (hopt : IsOptimalLower assets cur dtH w (fun _ => 0) s)
    (fw : FlywheelState) (hJ : 0 < fw.J) (hkf : 0 < fw.kf) (hdt : 0 < fw.dt)
    (hmin : 0 ≤ fw.omegaMin) (hlo : fw.omegaMin < fw.omega)
    (hhi : fw.omega ≤ fw.omegaMax)
    (hrange : 1 / 1000000 < fw.omegaMax ^ 2 - fw.omegaMin ^ 2) :
    (∀ t, totalLowerDispatchAC assets s t = 0) ∧
    (fw.updateState 0).getSoc < fw.getSoc := by
  constructor
  · have hzf := zeroLowerSol_feasible n T assets cur dtH hpow heff hcur
    have hle := hopt.2 _ hzf
    rw [lowerObjective_zeroSol] at hle
    have hge := lowerObjective_nonneg assets w (fun _ => 0) s (le_of_lt hw)
    have heq : lowerObjective assets w (fun _ => 0) s = 0 := le_antisymm hle hge
    rw [lowerObjective] at heq
    have hsum : (∑ t, (totalLowerDispatchAC assets s t - 0) ^ 2) = 0 := by
      rcases mul_eq_zero.mp heq with h | h
      · exact absurd h (ne_of_gt hw)
      · exact h
    intro t
    have := (Finset.sum_eq_zero_iff_of_nonneg
      (fun t2 _ => sq_nonneg (totalLowerDispatchAC assets s t2 - 0))).mp hsum t
      (Finset.mem_univ t)
    have := (pow_eq_zero_iff two_ne_zero).mp this
    linarith [this]
  · have homega : 0 < fw.omega := lt_of_le_of_lt hmin hlo
    have hupd : fw.updateState 0 = fw.idleLoss fw.dt := by
      rw [FlywheelState.updateState]
      norm_num
    rw [hupd]
    rw [FlywheelState.idleLoss, FlywheelState.netTorque, FlywheelState.lossTorque,
      FlywheelState.updateAngularVelocity]
    have hx : fw.omega + (0 - fw.kf * fw.omega) / fw.J * fw.dt < fw.omega := by
      have hpos : 0 < fw.kf * fw.omega / fw.J * fw.dt := by positivity
      have hrw : (0 - fw.kf * fw.omega) / fw.J * fw.dt =
          -(fw.kf * fw.omega / fw.J * fw.dt) := by ring
      rw [hrw]
      linarith
    have hlt : npClip (fw.omega + (0 - fw.kf * fw.omega) / fw.J * fw.dt)
        fw.omegaMin fw.omegaMax < fw.omega :=
      lt_of_le_of_lt (min_le_left _ _) (max_lt hx hlo)
    have hge2 : fw.omegaMin ≤
        npClip (fw.omega + (0 - fw.kf * fw.omega) / fw.J * fw.dt)
          fw.omegaMin fw.omegaMax :=
      le_min (le_max_right _ _) (le_trans (le_of_lt hlo) hhi)
    rw [FlywheelState.getSoc, FlywheelState.getSoc]
    simp only
    rw [if_neg (not_le.mpr hrange), if_neg (not_le.mpr hrange)]
    have hr : (0 : ℚ) < fw.omegaMax ^ 2 - fw.omegaMin ^ 2 :=
      lt_trans (by norm_num) hrange
    have hsq : (npClip (fw.omega + (0 - fw.kf * fw.omega) / fw.J * fw.dt)
        fw.omegaMin fw.omegaMax) ^ 2 < fw.omega ^ 2 := by
      have h0le : 0 ≤ npClip (fw.omega + (0 - fw.kf * fw.omega) / fw.J * fw.dt)
          fw.omegaMin fw.omegaMax := le_trans hmin hge2
      nlinarith [hlt, h0le]
    gcongr

/-- C10 witness: the amended theorem applied to the concrete one-asset zero
plan (optimal for the zero signal) and the concrete flywheel state. -/
theorem zero_signal_optimal_total_and_idle_witness :
    (∀ t, totalLowerDispatchAC (fun _ : Fin 1 => unitAsset)
      (zeroLowerSol 1 1 (fun _ => 1 / 2)) t = 0) ∧
    (exFlywheel.updateState 0).getSoc < exFlywheel.getSoc :=
  zero_signal_optimal_total_and_idle (fun _ : Fin 1 => unitAsset)
    (fun _ => 1 / 2) (1 / 100) 100 (by norm_num)
    (fun _ => by norm_num [unitAsset])
    (fun _ => by norm_num [unitAsset])
    (fun _ => by norm_num [unitAsset])
    (zeroLowerSol 1 1 (fun _ => 1 / 2))
    ⟨zeroLowerSol_feasible 1 1 _ _ _ (fun _ => by norm_num [unitAsset])
        (fun _ => by norm_num [unitAsset]) (fun _ => by norm_num [unitAsset]),
     fun s2 h2 => by
      rw [lowerObjective_zeroSol]
      exact lowerObjective_nonneg _ _ _ _ (by norm_num)⟩
    exFlywheel (by norm_num [exFlywheel]) (by norm_num [exFlywheel])
    (by norm_num [exFlywheel]) (by norm_num [exFlywheel])
    (by norm_num [exFlywheel]) (by norm_num [exFlywheel])
    (by norm_num [exFlywheel])

end EnergyStorage
